import Mathlib

set_option linter.unusedVariables false

/-!
Verification development for the ultra-fileio repository core:
the hook/interceptor execution pipeline of
src/repositories/base.repository.ts and the Drizzle / Prisma
repository adapters built on top of it.

Machine integers of the source are JS numbers used as counters,
sizes and millisecond timestamps; they are modelled as Nat.
JS promise rejection / thrown exceptions are modelled as Except.
-/

/-- JsError is the type of exception values observable from the hook
engine: a user-thrown error value, or the TypeError the engine itself
produces when it dereferences an absent metadata bag
(the context.metadata! assertions in wrapWithHooks). -/
inductive JsError (E : Type) where
  | thrown (e : E)
  | typeError
deriving DecidableEq, Repr

mutual
/-- HookContext from file.repository.interface.ts: operation name, input
data, result, error, optional metadata bag, start timestamp. All fields
other than operation are optional in the source type. -/
inductive Ctx (V E : Type) where
  | mk (operation : String) (data : Option V) (result : Option V)
      (error : Option (JsError E)) (metadata : Option (Meta V E))
      (startTime : Option Nat)

/-- Metadata bag of a HookContext, restricted to the fields the engine
reads or writes: the duration stamp, the nested originalContext of a
hook-error notification, and an opaque slot for user content. -/
inductive Meta (V E : Type) where
  | mk (duration : Option Nat) (originalContext : Option (Ctx V E))
      (extra : Option V)
end

def Ctx.operation {V E : Type} : Ctx V E → String
  | .mk op _ _ _ _ _ => op

def Ctx.data {V E : Type} : Ctx V E → Option V
  | .mk _ d _ _ _ _ => d

def Ctx.result {V E : Type} : Ctx V E → Option V
  | .mk _ _ r _ _ _ => r

def Ctx.error {V E : Type} : Ctx V E → Option (JsError E)
  | .mk _ _ _ e _ _ => e

def Ctx.metadata {V E : Type} : Ctx V E → Option (Meta V E)
  | .mk _ _ _ _ m _ => m

def Ctx.startTime {V E : Type} : Ctx V E → Option Nat
  | .mk _ _ _ _ _ t => t

def Meta.duration {V E : Type} : Meta V E → Option Nat
  | .mk d _ _ => d

def Meta.originalContext {V E : Type} : Meta V E → Option (Ctx V E)
  | .mk _ oc _ => oc

/-- context.result = result (line 92 of base.repository.ts). -/
def Ctx.setResult {V E : Type} : Ctx V E → V → Ctx V E
  | .mk op d _ e m t, r => .mk op d (some r) e m t

/-- context.error = error (line 104 of base.repository.ts). -/
def Ctx.setError {V E : Type} : Ctx V E → JsError E → Ctx V E
  | .mk op d r _ m t, e => .mk op d r (some e) m t

def Ctx.setMetadata {V E : Type} : Ctx V E → Meta V E → Ctx V E
  | .mk op d r e _ t, m => .mk op d r e (some m) t

/-- metadata.duration = now - startTime. -/
def Meta.setDuration {V E : Type} : Meta V E → Nat → Meta V E
  | .mk _ oc ex, d => .mk (some d) oc ex

/-- Observable events of one wrapped call: a hook invocation (with the
context it received), an interceptor invocation (with the context it
received), or a backend database call issued by the operation thunk. -/
inductive Ev (V E F : Type) where
  | hook (f : F) (c : Ctx V E)
  | intercept (c : Ctx V E)
  | db (call : String)

/-- Synthetic context built by executeHook when a non-error hook fails:
operation "hook_error", the causing error, and the original context
nested in metadata. -/
def hookErrorCtx {V E : Type} (e : JsError E) (original : Ctx V E) : Ctx V E :=
  .mk "hook_error" none none (some e) (some (.mk none (some original) none)) none

/-- BaseFileRepository.executeHook. Hook references are modelled by a
type F with decidable (reference) equality and a semantics function
sem; the hook is invoked, its failure is swallowed, and a failing hook
that is not the error-hook is forwarded once to the error-hook with a
synthetic hook_error context. The source recursion executeHook(onError, ..)
is capped at one level by its own guard hook !== this.hooks.onError, so
it is inlined here: the inner invocation happens (second event) and its
own failure is caught without further forwarding. -/
def executeHook {V E F : Type} [DecidableEq F]
    (sem : F → Ctx V E → Except (JsError E) Unit)
    (onErrorHook : Option F) (hook : Option F) (context : Ctx V E) :
    List (Ev V E F) :=
  match hook with
  | none => []
  | some h =>
    match sem h context with
    | .ok _ => [.hook h context]
    | .error e =>
      match onErrorHook with
      | some oe =>
        if h = oe then [.hook h context]
        else [.hook h context, .hook oe (hookErrorCtx e context)]
      | none => [.hook h context]

/-- BaseFileRepository.executeInterceptor: runs the interceptor if
present; on success its returned context replaces the working context,
on failure the original context is kept. -/
def executeInterceptor {V E I F : Type}
    (isem : I → Ctx V E → Except (JsError E) (Ctx V E))
    (interceptHook : Option I) (context : Ctx V E) :
    Ctx V E × List (Ev V E F) :=
  match interceptHook with
  | none => (context, [])
  | some i =>
    match isem i context with
    | .ok c => (c, [.intercept context])
    | .error _ => (context, [.intercept context])

/-- BaseFileRepository.wrapWithHooks. The operation thunk is a pure
pair of its outcome and the backend calls it issues; t0 and t1 are the
two Date.now() readings. The context.metadata! assertions of the
source (lines 93 and 105) throw a TypeError when the working context,
as returned by the interceptor, has no metadata bag; on the success
path that TypeError is caught by the catch block, which hits the same
assertion again and rethrows, so in both paths the wrapper rejects
with the TypeError and the error hook of the catch path never runs. -/
def wrapWithHooks {V E F I : Type} [DecidableEq F]
    (sem : F → Ctx V E → Except (JsError E) Unit)
    (isem : I → Ctx V E → Except (JsError E) (Ctx V E))
    (onErrorHook : Option F) (interceptHook : Option I)
    (operation : String) (beforeHook afterHook : Option F)
    (operationFn : Except (JsError E) V × List String)
    (data : Option V) (t0 t1 : Nat) :
    Except (JsError E) V × List (Ev V E F) :=
  let context0 : Ctx V E :=
    .mk operation data none none (some (.mk none none none)) (some t0)
  let step1 := executeInterceptor (F := F) isem interceptHook context0
  let context1 := step1.1
  let trBefore := executeHook sem onErrorHook beforeHook context1
  let trPre := step1.2 ++ trBefore ++ operationFn.2.map Ev.db
  match operationFn.1 with
  | .ok r =>
    let context2 := context1.setResult r
    match context2.metadata with
    | none => (.error .typeError, trPre)
    | some m =>
      let context3 := context2.setMetadata (m.setDuration (t1 - t0))
      let step2 := executeInterceptor (F := F) isem interceptHook context3
      let trAfter := executeHook sem onErrorHook afterHook step2.1
      (.ok r, trPre ++ step2.2 ++ trAfter)
  | .error e =>
    let context2 := context1.setError e
    match context2.metadata with
    | none => (.error .typeError, trPre)
    | some m =>
      let context3 := context2.setMetadata (m.setDuration (t1 - t0))
      let trErr := executeHook sem onErrorHook onErrorHook context3
      (.error e, trPre ++ trErr)

/-- Full hook registration table of FileRepositoryHooks: five before
slots, five after slots, the error hook and the generic interceptor,
every slot optional. -/
structure HookTable (F I : Type) where
  beforeCreate : Option F
  beforeRead : Option F
  beforeUpdate : Option F
  beforeDelete : Option F
  beforeQuery : Option F
  afterCreate : Option F
  afterRead : Option F
  afterUpdate : Option F
  afterDelete : Option F
  afterQuery : Option F
  onError : Option F
  intercept : Option I

/-- Hook table with no registered hooks, the constructor default. -/
def emptyHooks {F I : Type} : HookTable F I :=
  { beforeCreate := none, beforeRead := none, beforeUpdate := none
    beforeDelete := none, beforeQuery := none, afterCreate := none
    afterRead := none, afterUpdate := none, afterDelete := none
    afterQuery := none, onError := none, intercept := none }

/-!
Adapter domain model (file.repository.interface.ts and file.module.ts).
-/

/-- StorageErrorCode values from file.module.ts. -/
inductive ErrCode where
  | BAD_REQUEST
  | NOT_FOUND
  | INTERNAL_SERVER_ERROR
  | UNAUTHORIZED
  | FORBIDDEN
  | CONFLICT
  | PAYLOAD_TOO_LARGE
deriving DecidableEq, Repr

/-- StorageError: discriminated code, message, the metadata id slot the
adapters populate for NOT_FOUND, and whether a backend cause was
attached. -/
structure StorageError where
  code : ErrCode
  message : String
  metaId : Option String
  hasCause : Bool
deriving DecidableEq, Repr

/-- FileRecord: timestamps and sizes are JS numbers, modelled as Nat. -/
structure FileRecord where
  id : String
  r2Key : String
  originalFilename : String
  fileSize : Nat
  publicUrl : String
  uploadedBy : String
  createdAt : Nat
deriving DecidableEq, Repr

structure FileInsert where
  r2Key : String
  originalFilename : String
  fileSize : Nat
  publicUrl : String
  uploadedBy : String
deriving DecidableEq, Repr

/-- Partial FileInsert used by updateFile. -/
structure FilePatch where
  r2Key : Option String
  originalFilename : Option String
  fileSize : Option Nat
  publicUrl : Option String
  uploadedBy : Option String
deriving DecidableEq, Repr

/-- Row of the optional users table joined by getAllFiles. -/
structure UserRecord where
  id : String
  name : String
  email : String
deriving DecidableEq, Repr

inductive OrderKey where
  | createdAt
  | fileSize
  | originalFilename
deriving DecidableEq, Repr

inductive OrderDir where
  | asc
  | desc
deriving DecidableEq, Repr

/-- FileQueryOptions; every field optional (undefined when absent). -/
structure FileQueryOptions where
  limit : Option Nat
  offset : Option Nat
  search : Option String
  uploaderId : Option String
  startDate : Option Nat
  endDate : Option Nat
  orderKey : Option OrderKey
  orderDir : Option OrderDir
deriving DecidableEq, Repr

/-- FileRecordWithUser: a file row extended by the joined uploader
name and email, null when the join finds no user. -/
structure FileRecordWithUser where
  base : FileRecord
  uploaderName : Option String
  uploaderEmail : Option String
deriving DecidableEq, Repr

structure FileStats where
  totalFiles : Nat
  totalSize : Nat
  recentUploads : Nat
  averageFileSize : Nat
deriving DecidableEq, Repr

/-- Untyped JS values flowing through hook contexts (data payloads and
results of the repository methods). -/
inductive Val where
  | unit
  | bool (bv : Bool)
  | nat (n : Nat)
  | str (s : String)
  | insertArg (d : FileInsert)
  | insertsArg (ds : List FileInsert)
  | idArg (id : String)
  | keyArg (r2Key : String)
  | userArg (userId : String)
  | updateArg (id : String) (patch : FilePatch)
  | idsArg (ids : List String)
  | optionsArg (o : FileQueryOptions)
  | file (f : FileRecord)
  | fileOpt (f : Option FileRecord)
  | files (fs : List FileRecord)
  | page (rows : List FileRecordWithUser) (total : Nat)
  | bulkDel (deleted : Nat)
  | statsVal (s : FileStats)
deriving DecidableEq, Repr

/-- Backend database state: the files table and the optional users
table contents. -/
structure DbState where
  files : List FileRecord
  users : List UserRecord
deriving DecidableEq, Repr

abbrev SErr := JsError StorageError

abbrev AEv (F : Type) := Ev Val StorageError F

abbrev HookSem (F : Type) := F → Ctx Val StorageError → Except SErr Unit

abbrev ISem (I : Type) :=
  I → Ctx Val StorageError → Except SErr (Ctx Val StorageError)

/-- mapToFileRecord of both adapters: rebuilds the row field by field
(Number and new Date are identities in this model). -/
def mapToFileRecord (f : FileRecord) : FileRecord :=
  { id := f.id, r2Key := f.r2Key, originalFilename := f.originalFilename
    fileSize := f.fileSize, publicUrl := f.publicUrl
    uploadedBy := f.uploadedBy, createdAt := f.createdAt }

/-- JS truthiness of an optional string: undefined and the empty
string are falsy. -/
def truthyStr : Option String → Bool
  | none => false
  | some s => !(s == "")

/-- Boolean prefix test on character lists. -/
def prefixOfL : List Char → List Char → Bool
  | [], _ => true
  | _ :: _, [] => false
  | a :: as, b :: bs => a == b && prefixOfL as bs

/-- Boolean substring test on character lists. -/
def hasSubL (needle : List Char) : List Char → Bool
  | [] => needle == []
  | h :: hs => prefixOfL needle (h :: hs) || hasSubL needle hs

/-- SQL LIKE with wildcards on both sides: substring containment. -/
def strContains (hay needle : String) : Bool :=
  hasSubL needle.data hay.data

/-- Lowercase a string character-wise (Prisma mode insensitive). -/
def lowerStr (s : String) : String :=
  ⟨s.data.map Char.toLower⟩

def applyPatch (p : FilePatch) (f : FileRecord) : FileRecord :=
  { id := f.id
    r2Key := p.r2Key.getD f.r2Key
    originalFilename := p.originalFilename.getD f.originalFilename
    fileSize := p.fileSize.getD f.fileSize
    publicUrl := p.publicUrl.getD f.publicUrl
    uploadedBy := p.uploadedBy.getD f.uploadedBy
    createdAt := f.createdAt }

/-- Ordering key comparison for ORDER BY. -/
def keyLe (k : OrderKey) (a c : FileRecord) : Bool :=
  match k with
  | .createdAt => decide (a.createdAt ≤ c.createdAt)
  | .fileSize => decide (a.fileSize ≤ c.fileSize)
  | .originalFilename => decide (a.originalFilename ≤ c.originalFilename)

/-- ORDER BY comparator: descending flips the key comparison. -/
def orderLe (k : OrderKey) (dir : OrderDir) (a c : FileRecord) : Bool :=
  match dir with
  | .asc => keyLe k a c
  | .desc => keyLe k c a


/-!
Drizzle adapter (src/repositories/adapters/drizzle.adapter.ts).
Each wrapped method passes its thunk outcome plus the backend calls it
issues to wrapWithHooks together with the before/after pair of its
category; getFileStats, exists and count are written in the source as
plain try/catch bodies without wrapWithHooks and are modelled the same
way (they receive the hook table but never consult it). Backend
generated values (fresh ids, clock readings) enter as parameters.
-/

/-- createFile: insert returning, wrapped with the create pair. The
inserted row always comes back in this backend model, so the defensive
undefined check of the source is not reachable here. -/
def drizzleCreateFile {F I : Type} [DecidableEq F] (sem : HookSem F)
    (isem : ISem I) (h : HookTable F I) (db : DbState) (d : FileInsert)
    (newId : String) (now : Nat) (t0 t1 : Nat) :
    (Except SErr Val × List (AEv F)) × DbState :=
  let row : FileRecord :=
    { id := newId, r2Key := d.r2Key, originalFilename := d.originalFilename
      fileSize := d.fileSize, publicUrl := d.publicUrl
      uploadedBy := d.uploadedBy, createdAt := now }
  ((wrapWithHooks sem isem h.onError h.intercept "createFile"
      h.beforeCreate h.afterCreate
      (.ok (Val.file (mapToFileRecord row)), ["insert files returning"])
      (some (Val.insertArg d)) t0 t1),
   { files := db.files ++ [row], users := db.users })

/-- getFileById: select where eq id, wrapped with the read pair. -/
def drizzleGetFileById {F I : Type} [DecidableEq F] (sem : HookSem F)
    (isem : ISem I) (h : HookTable F I) (db : DbState) (id : String)
    (t0 t1 : Nat) : (Except SErr Val × List (AEv F)) × DbState :=
  let found := db.files.find? (fun f => f.id == id)
  ((wrapWithHooks sem isem h.onError h.intercept "getFileById"
      h.beforeRead h.afterRead
      (.ok (Val.fileOpt (found.map mapToFileRecord)), ["select files where id"])
      (some (Val.idArg id)) t0 t1), db)

/-- getFileByR2Key: select where eq r2Key, wrapped with the read pair. -/
def drizzleGetFileByR2Key {F I : Type} [DecidableEq F] (sem : HookSem F)
    (isem : ISem I) (h : HookTable F I) (db : DbState) (r2Key : String)
    (t0 t1 : Nat) : (Except SErr Val × List (AEv F)) × DbState :=
  let found := db.files.find? (fun f => f.r2Key == r2Key)
  ((wrapWithHooks sem isem h.onError h.intercept "getFileByR2Key"
      h.beforeRead h.afterRead
      (.ok (Val.fileOpt (found.map mapToFileRecord)), ["select files where r2Key"])
      (some (Val.keyArg r2Key)) t0 t1), db)

/-- updateFile: update returning; an empty returned row set means no
row matched and yields NOT_FOUND carrying the id in metadata. -/
def drizzleUpdateFile {F I : Type} [DecidableEq F] (sem : HookSem F)
    (isem : ISem I) (h : HookTable F I) (db : DbState) (id : String)
    (p : FilePatch) (t0 t1 : Nat) :
    (Except SErr Val × List (AEv F)) × DbState :=
  let run : Except SErr Val :=
    match db.files.find? (fun f => f.id == id) with
    | none =>
      .error (.thrown { code := .NOT_FOUND, message := "File not found"
                        metaId := some id, hasCause := false })
    | some f => .ok (Val.file (mapToFileRecord (applyPatch p f)))
  ((wrapWithHooks sem isem h.onError h.intercept "updateFile"
      h.beforeUpdate h.afterUpdate (run, ["update files where id returning"])
      (some (Val.updateArg id p)) t0 t1),
   { files := db.files.map (fun f => if f.id == id then applyPatch p f else f)
     users := db.users })

/-- deleteFile of the Drizzle adapter: a bare delete-where call whose
affected row count is never inspected, so the thunk resolves with unit
whether or not any row matched. -/
def drizzleDeleteFile {F I : Type} [DecidableEq F] (sem : HookSem F)
    (isem : ISem I) (h : HookTable F I) (db : DbState) (id : String)
    (t0 t1 : Nat) : (Except SErr Val × List (AEv F)) × DbState :=
  ((wrapWithHooks sem isem h.onError h.intercept "deleteFile"
      h.beforeDelete h.afterDelete (.ok Val.unit, ["delete files where id"])
      (some (Val.idArg id)) t0 t1),
   { files := db.files.filter (fun f => !(f.id == id)), users := db.users })

/-- getFilesByUser: select where uploadedBy, newest first, wrapped with
the query pair. -/
def drizzleGetFilesByUser {F I : Type} [DecidableEq F] (sem : HookSem F)
    (isem : ISem I) (h : HookTable F I) (db : DbState) (userId : String)
    (t0 t1 : Nat) : (Except SErr Val × List (AEv F)) × DbState :=
  let rows :=
    ((db.files.filter (fun f => f.uploadedBy == userId)).mergeSort
      (orderLe .createdAt .desc)).map mapToFileRecord
  ((wrapWithHooks sem isem h.onError h.intercept "getFilesByUser"
      h.beforeQuery h.afterQuery
      (.ok (Val.files rows), ["select files where uploadedBy order by createdAt desc"])
      (some (Val.userArg userId)) t0 t1), db)

/-- Where conditions built inside getAllFiles: substring match on the
filename (skipped for undefined or empty search), uploader equality
(skipped for undefined or empty uploaderId), and creation date bounds
(skipped when the Date is undefined). -/
def drizzleGetAllFilesCond (o : FileQueryOptions) (f : FileRecord) : Bool :=
  (if truthyStr o.search
    then strContains f.originalFilename (o.search.getD "") else true) &&
  (if truthyStr o.uploaderId
    then f.uploadedBy == o.uploaderId.getD "" else true) &&
  (match o.startDate with
   | some d => decide (d ≤ f.createdAt)
   | none => true) &&
  (match o.endDate with
   | some d => decide (f.createdAt ≤ d)
   | none => true)

/-- Data page and filter-wide total computed by the getAllFiles thunk:
filter, order, offset then limit for the page; the total comes from a
second count query under the same where clause. The uploader name and
email are joined from the users table when it is configured and null
otherwise. -/
def drizzleGetAllFilesRun (usersConfigured : Bool) (db : DbState)
    (o : FileQueryOptions) : List FileRecordWithUser × Nat :=
  let lim := o.limit.getD 50
  let off := o.offset.getD 0
  let k := o.orderKey.getD .createdAt
  let dir := o.orderDir.getD .desc
  let sorted := (db.files.filter (drizzleGetAllFilesCond o)).mergeSort (orderLe k dir)
  let rows := (sorted.drop off).take lim
  let data :=
    if usersConfigured then
      rows.map (fun f =>
        match db.users.find? (fun u => u.id == f.uploadedBy) with
        | some u =>
          { base := f, uploaderName := some u.name, uploaderEmail := some u.email }
        | none => { base := f, uploaderName := none, uploaderEmail := none })
    else
      rows.map (fun f =>
        { base := f, uploaderName := none, uploaderEmail := none })
  (data, (db.files.filter (drizzleGetAllFilesCond o)).length)

/-- getAllFiles, wrapped with the query pair. -/
def drizzleGetAllFiles {F I : Type} [DecidableEq F] (sem : HookSem F)
    (isem : ISem I) (h : HookTable F I) (usersConfigured : Bool)
    (db : DbState) (o : FileQueryOptions) (t0 t1 : Nat) :
    (Except SErr Val × List (AEv F)) × DbState :=
  let run := drizzleGetAllFilesRun usersConfigured db o
  ((wrapWithHooks sem isem h.onError h.intercept "getAllFiles"
      h.beforeQuery h.afterQuery
      (.ok (Val.page run.1 run.2), ["select files page", "select count files"])
      (some (Val.optionsArg o)) t0 t1), db)

/-- bulkDeleteFiles: empty input short-circuits inside the thunk before
any backend call; otherwise one delete-where-inArray round trip whose
rowCount is returned. -/
def drizzleBulkDeleteFiles {F I : Type} [DecidableEq F] (sem : HookSem F)
    (isem : ISem I) (h : HookTable F I) (db : DbState) (ids : List String)
    (t0 t1 : Nat) : (Except SErr Val × List (AEv F)) × DbState :=
  let run : Except SErr Val × List String :=
    if ids.isEmpty then (.ok (Val.bulkDel 0), [])
    else
      (.ok (Val.bulkDel ((db.files.filter (fun f => ids.contains f.id)).length)),
       ["delete files where id inArray"])
  ((wrapWithHooks sem isem h.onError h.intercept "bulkDeleteFiles"
      h.beforeDelete h.afterDelete run (some (Val.idsArg ids)) t0 t1),
   if ids.isEmpty then db
   else { files := db.files.filter (fun f => !(ids.contains f.id))
          users := db.users })

/-- bulkCreateFiles: empty input short-circuits inside the thunk before
any backend call; otherwise one insert-values returning round trip. -/
def drizzleBulkCreateFiles {F I : Type} [DecidableEq F] (sem : HookSem F)
    (isem : ISem I) (h : HookTable F I) (db : DbState)
    (fileData : List FileInsert) (genId : Nat → String) (now : Nat)
    (t0 t1 : Nat) : (Except SErr Val × List (AEv F)) × DbState :=
  let newRows := fileData.enum.map (fun di =>
    { id := genId di.1, r2Key := di.2.r2Key
      originalFilename := di.2.originalFilename, fileSize := di.2.fileSize
      publicUrl := di.2.publicUrl, uploadedBy := di.2.uploadedBy
      createdAt := now : FileRecord })
  let run : Except SErr Val × List String :=
    if fileData.isEmpty then (.ok (Val.files []), [])
    else (.ok (Val.files (newRows.map mapToFileRecord)), ["insert files values returning"])
  ((wrapWithHooks sem isem h.onError h.intercept "bulkCreateFiles"
      h.beforeCreate h.afterCreate run (some (Val.insertsArg fileData)) t0 t1),
   if fileData.isEmpty then db
   else { files := db.files ++ newRows, users := db.users })

/-- getFileStats of the Drizzle adapter: two aggregate selects inside a
plain try/catch, not routed through wrapWithHooks; the hook table is
in scope on the instance but never consulted. SQL AVG is approximated
by Nat division; COALESCE makes both aggregates zero on an empty
table. -/
def drizzleGetFileStats {F I : Type} (sem : HookSem F) (isem : ISem I)
    (h : HookTable F I) (db : DbState) (sevenDaysAgo : Nat) :
    Except SErr FileStats × List (AEv F) :=
  let total := db.files.length
  let size := (db.files.map (fun f => f.fileSize)).sum
  let recent := (db.files.filter (fun f => decide (sevenDaysAgo ≤ f.createdAt))).length
  let avg := if total == 0 then 0 else size / total
  (.ok { totalFiles := total, totalSize := size, recentUploads := recent
         averageFileSize := avg },
   [.db "select count sum avg files", .db "select count files recent"])

/-- exists of the Drizzle adapter: one select-limit-1 inside a plain
try/catch, not routed through wrapWithHooks. -/
def drizzleExistsM {F I : Type} (sem : HookSem F) (isem : ISem I)
    (h : HookTable F I) (db : DbState) (id : String) :
    Except SErr Bool × List (AEv F) :=
  (.ok (db.files.any (fun f => f.id == id)), [.db "select id from files where id limit 1"])

/-- Where conditions built inside count, duplicated from getAllFiles
in the source. -/
def drizzleCountCond (o : FileQueryOptions) (f : FileRecord) : Bool :=
  (if truthyStr o.search
    then strContains f.originalFilename (o.search.getD "") else true) &&
  (if truthyStr o.uploaderId
    then f.uploadedBy == o.uploaderId.getD "" else true) &&
  (match o.startDate with
   | some d => decide (d ≤ f.createdAt)
   | none => true) &&
  (match o.endDate with
   | some d => decide (f.createdAt ≤ d)
   | none => true)

/-- count of the Drizzle adapter: one count select inside a plain
try/catch, not routed through wrapWithHooks. -/
def drizzleCountM {F I : Type} (sem : HookSem F) (isem : ISem I)
    (h : HookTable F I) (db : DbState) (o : FileQueryOptions) :
    Except SErr Nat × List (AEv F) :=
  (.ok ((db.files.filter (drizzleCountCond o)).length), [.db "select count files"])

/-!
Prisma adapter (prisma.adapter source file). Differences from the
Drizzle adapter: updateFile and deleteFile translate the Prisma P2025
record-not-found error into NOT_FOUND with the id in metadata, the
search filter is case-insensitive, the uploader join is always on, and
bulkCreateFiles runs its per-row creates in one transaction.
-/

/-- createFile via prisma.file.create, wrapped with the create pair. -/
def prismaCreateFile {F I : Type} [DecidableEq F] (sem : HookSem F)
    (isem : ISem I) (h : HookTable F I) (db : DbState) (d : FileInsert)
    (newId : String) (now : Nat) (t0 t1 : Nat) :
    (Except SErr Val × List (AEv F)) × DbState :=
  let row : FileRecord :=
    { id := newId, r2Key := d.r2Key, originalFilename := d.originalFilename
      fileSize := d.fileSize, publicUrl := d.publicUrl
      uploadedBy := d.uploadedBy, createdAt := now }
  ((wrapWithHooks sem isem h.onError h.intercept "createFile"
      h.beforeCreate h.afterCreate
      (.ok (Val.file (mapToFileRecord row)), ["file create"])
      (some (Val.insertArg d)) t0 t1),
   { files := db.files ++ [row], users := db.users })

/-- getFileById via findUnique, wrapped with the read pair. -/
def prismaGetFileById {F I : Type} [DecidableEq F] (sem : HookSem F)
    (isem : ISem I) (h : HookTable F I) (db : DbState) (id : String)
    (t0 t1 : Nat) : (Except SErr Val × List (AEv F)) × DbState :=
  let found := db.files.find? (fun f => f.id == id)
  ((wrapWithHooks sem isem h.onError h.intercept "getFileById"
      h.beforeRead h.afterRead
      (.ok (Val.fileOpt (found.map mapToFileRecord)), ["file findUnique id"])
      (some (Val.idArg id)) t0 t1), db)

/-- getFileByR2Key via findUnique, wrapped with the read pair. -/
def prismaGetFileByR2Key {F I : Type} [DecidableEq F] (sem : HookSem F)
    (isem : ISem I) (h : HookTable F I) (db : DbState) (r2Key : String)
    (t0 t1 : Nat) : (Except SErr Val × List (AEv F)) × DbState :=
  let found := db.files.find? (fun f => f.r2Key == r2Key)
  ((wrapWithHooks sem isem h.onError h.intercept "getFileByR2Key"
      h.beforeRead h.afterRead
      (.ok (Val.fileOpt (found.map mapToFileRecord)), ["file findUnique r2Key"])
      (some (Val.keyArg r2Key)) t0 t1), db)

/-- updateFile via prisma.file.update: Prisma raises P2025 when no row
matches, which the adapter translates to NOT_FOUND with the id in
metadata. -/
def prismaUpdateFile {F I : Type} [DecidableEq F] (sem : HookSem F)
    (isem : ISem I) (h : HookTable F I) (db : DbState) (id : String)
    (p : FilePatch) (t0 t1 : Nat) :
    (Except SErr Val × List (AEv F)) × DbState :=
  let run : Except SErr Val :=
    match db.files.find? (fun f => f.id == id) with
    | none =>
      .error (.thrown { code := .NOT_FOUND, message := "File not found"
                        metaId := some id, hasCause := false })
    | some f => .ok (Val.file (mapToFileRecord (applyPatch p f)))
  ((wrapWithHooks sem isem h.onError h.intercept "updateFile"
      h.beforeUpdate h.afterUpdate (run, ["file update where id"])
      (some (Val.updateArg id p)) t0 t1),
   { files := db.files.map (fun f => if f.id == id then applyPatch p f else f)
     users := db.users })

/-- deleteFile via prisma.file.delete: Prisma raises P2025 when no row
matches, translated to NOT_FOUND with the id in metadata. -/
def prismaDeleteFile {F I : Type} [DecidableEq F] (sem : HookSem F)
    (isem : ISem I) (h : HookTable F I) (db : DbState) (id : String)
    (t0 t1 : Nat) : (Except SErr Val × List (AEv F)) × DbState :=
  let run : Except SErr Val :=
    if db.files.any (fun f => f.id == id) then .ok Val.unit
    else
      .error (.thrown { code := .NOT_FOUND, message := "File not found"
                        metaId := some id, hasCause := false })
  ((wrapWithHooks sem isem h.onError h.intercept "deleteFile"
      h.beforeDelete h.afterDelete (run, ["file delete where id"])
      (some (Val.idArg id)) t0 t1),
   { files := db.files.filter (fun f => !(f.id == id)), users := db.users })

/-- getFilesByUser via findMany, newest first, wrapped with the query
pair. -/
def prismaGetFilesByUser {F I : Type} [DecidableEq F] (sem : HookSem F)
    (isem : ISem I) (h : HookTable F I) (db : DbState) (userId : String)
    (t0 t1 : Nat) : (Except SErr Val × List (AEv F)) × DbState :=
  let rows :=
    ((db.files.filter (fun f => f.uploadedBy == userId)).mergeSort
      (orderLe .createdAt .desc)).map mapToFileRecord
  ((wrapWithHooks sem isem h.onError h.intercept "getFilesByUser"
      h.beforeQuery h.afterQuery
      (.ok (Val.files rows), ["file findMany uploadedBy order createdAt desc"])
      (some (Val.userArg userId)) t0 t1), db)

/-- Where clause built inside the Prisma getAllFiles: case-insensitive
substring match on the filename (skipped for undefined or empty
search), uploader equality (skipped for undefined or empty
uploaderId), and creation date bounds. -/
def prismaGetAllFilesCond (o : FileQueryOptions) (f : FileRecord) : Bool :=
  (if truthyStr o.search
    then strContains (lowerStr f.originalFilename) (lowerStr (o.search.getD ""))
    else true) &&
  (if truthyStr o.uploaderId
    then f.uploadedBy == o.uploaderId.getD "" else true) &&
  (match o.startDate with
   | some d => decide (d ≤ f.createdAt)
   | none => true) &&
  (match o.endDate with
   | some d => decide (f.createdAt ≤ d)
   | none => true)

/-- Data page and total of the Prisma getAllFiles thunk: findMany with
the uploader relation included, take and skip, and a parallel count
under the same where clause. -/
def prismaGetAllFilesRun (db : DbState) (o : FileQueryOptions) :
    List FileRecordWithUser × Nat :=
  let lim := o.limit.getD 50
  let off := o.offset.getD 0
  let k := o.orderKey.getD .createdAt
  let dir := o.orderDir.getD .desc
  let sorted := (db.files.filter (prismaGetAllFilesCond o)).mergeSort (orderLe k dir)
  let rows := (sorted.drop off).take lim
  let data := rows.map (fun f =>
    match db.users.find? (fun u => u.id == f.uploadedBy) with
    | some u =>
      { base := mapToFileRecord f, uploaderName := some u.name
        uploaderEmail := some u.email }
    | none =>
      { base := mapToFileRecord f, uploaderName := none, uploaderEmail := none })
  (data, (db.files.filter (prismaGetAllFilesCond o)).length)

/-- getAllFiles, wrapped with the query pair. -/
def prismaGetAllFiles {F I : Type} [DecidableEq F] (sem : HookSem F)
    (isem : ISem I) (h : HookTable F I) (db : DbState)
    (o : FileQueryOptions) (t0 t1 : Nat) :
    (Except SErr Val × List (AEv F)) × DbState :=
  let run := prismaGetAllFilesRun db o
  ((wrapWithHooks sem isem h.onError h.intercept "getAllFiles"
      h.beforeQuery h.afterQuery
      (.ok (Val.page run.1 run.2), ["file findMany include uploader", "file count"])
      (some (Val.optionsArg o)) t0 t1), db)

/-- bulkDeleteFiles: empty input short-circuits inside the thunk before
any backend call; otherwise one deleteMany round trip returning its
count. -/
def prismaBulkDeleteFiles {F I : Type} [DecidableEq F] (sem : HookSem F)
    (isem : ISem I) (h : HookTable F I) (db : DbState) (ids : List String)
    (t0 t1 : Nat) : (Except SErr Val × List (AEv F)) × DbState :=
  let run : Except SErr Val × List String :=
    if ids.isEmpty then (.ok (Val.bulkDel 0), [])
    else
      (.ok (Val.bulkDel ((db.files.filter (fun f => ids.contains f.id)).length)),
       ["file deleteMany id in ids"])
  ((wrapWithHooks sem isem h.onError h.intercept "bulkDeleteFiles"
      h.beforeDelete h.afterDelete run (some (Val.idsArg ids)) t0 t1),
   if ids.isEmpty then db
   else { files := db.files.filter (fun f => !(ids.contains f.id))
          users := db.users })

/-- bulkCreateFiles: empty input short-circuits inside the thunk before
any backend call; otherwise the per-row creates run in one
transaction. -/
def prismaBulkCreateFiles {F I : Type} [DecidableEq F] (sem : HookSem F)
    (isem : ISem I) (h : HookTable F I) (db : DbState)
    (fileData : List FileInsert) (genId : Nat → String) (now : Nat)
    (t0 t1 : Nat) : (Except SErr Val × List (AEv F)) × DbState :=
  let newRows := fileData.enum.map (fun di =>
    { id := genId di.1, r2Key := di.2.r2Key
      originalFilename := di.2.originalFilename, fileSize := di.2.fileSize
      publicUrl := di.2.publicUrl, uploadedBy := di.2.uploadedBy
      createdAt := now : FileRecord })
  let run : Except SErr Val × List String :=
    if fileData.isEmpty then (.ok (Val.files []), [])
    else (.ok (Val.files (newRows.map mapToFileRecord)), ["transaction file create each"])
  ((wrapWithHooks sem isem h.onError h.intercept "bulkCreateFiles"
      h.beforeCreate h.afterCreate run (some (Val.insertsArg fileData)) t0 t1),
   if fileData.isEmpty then db
   else { files := db.files ++ newRows, users := db.users })

/-- getFileStats of the Prisma adapter: four aggregate queries inside a
plain try/catch, not routed through wrapWithHooks. -/
def prismaGetFileStats {F I : Type} (sem : HookSem F) (isem : ISem I)
    (h : HookTable F I) (db : DbState) (sevenDaysAgo : Nat) :
    Except SErr FileStats × List (AEv F) :=
  let total := db.files.length
  let size := (db.files.map (fun f => f.fileSize)).sum
  let recent := (db.files.filter (fun f => decide (sevenDaysAgo ≤ f.createdAt))).length
  let avg := if total == 0 then 0 else size / total
  (.ok { totalFiles := total, totalSize := size, recentUploads := recent
         averageFileSize := avg },
   [.db "file count", .db "file aggregate sum", .db "file count recent",
    .db "file aggregate avg"])

/-- exists of the Prisma adapter: one count query inside a plain
try/catch, not routed through wrapWithHooks. -/
def prismaExistsM {F I : Type} (sem : HookSem F) (isem : ISem I)
    (h : HookTable F I) (db : DbState) (id : String) :
    Except SErr Bool × List (AEv F) :=
  (.ok (decide (0 < (db.files.filter (fun f => f.id == id)).length)),
   [.db "file count where id"])

/-- Where clause built inside the Prisma count, duplicated from
getAllFiles in the source. -/
def prismaCountCond (o : FileQueryOptions) (f : FileRecord) : Bool :=
  (if truthyStr o.search
    then strContains (lowerStr f.originalFilename) (lowerStr (o.search.getD ""))
    else true) &&
  (if truthyStr o.uploaderId
    then f.uploadedBy == o.uploaderId.getD "" else true) &&
  (match o.startDate with
   | some d => decide (d ≤ f.createdAt)
   | none => true) &&
  (match o.endDate with
   | some d => decide (f.createdAt ≤ d)
   | none => true)

/-- count of the Prisma adapter: one count query inside a plain
try/catch, not routed through wrapWithHooks. -/
def prismaCountM {F I : Type} (sem : HookSem F) (isem : ISem I)
    (h : HookTable F I) (db : DbState) (o : FileQueryOptions) :
    Except SErr Nat × List (AEv F) :=
  (.ok ((db.files.filter (prismaCountCond o)).length), [.db "file count where"])

/-!
Runtime hook management (getHooks, addHook, removeHook of
base.repository.ts). To distinguish the spread copy returned by
getHooks from an alias of the live table, hook tables live in a small
JS object heap: the repository instance holds a reference to its
mutable hooks object, getHooks allocates a fresh object with the same
fields, and property writes and deletes address one object by
reference.
-/

/-- Keys of the FileRepositoryHooks record. -/
inductive HookName where
  | beforeCreate
  | beforeRead
  | beforeUpdate
  | beforeDelete
  | beforeQuery
  | afterCreate
  | afterRead
  | afterUpdate
  | afterDelete
  | afterQuery
  | onError
  | interceptK
deriving DecidableEq, Repr

/-- A hooks object: per key an optionally present hook function
reference (delete removes the key, modelled by none). -/
def HookMapJs (F : Type) := HookName → Option F

/-- Heap of hooks objects, addressed by numeric references. -/
structure HeapSt (F : Type) where
  objs : List (Nat × HookMapJs F)
  nextRef : Nat

/-- Repository instance state: the heap and the reference this.hooks. -/
structure RepoSt (F : Type) where
  heap : HeapSt F
  hooksRef : Nat

def heapGet {F : Type} (h : HeapSt F) (r : Nat) : Option (HookMapJs F) :=
  (h.objs.find? (fun p => p.1 == r)).map (fun p => p.2)

def heapSet {F : Type} (h : HeapSt F) (r : Nat) (m : HookMapJs F) : HeapSt F :=
  { objs := h.objs.map (fun p => if p.1 == r then (r, m) else p)
    nextRef := h.nextRef }

/-- Repository constructor state: one hooks object on the heap. -/
def mkRepo {F : Type} (m : HookMapJs F) : RepoSt F :=
  { heap := { objs := [(0, m)], nextRef := 1 }, hooksRef := 0 }

/-- Read one slot of the live hook table. -/
def lookupHook {F : Type} (st : RepoSt F) (k : HookName) : Option F :=
  match heapGet st.heap st.hooksRef with
  | some m => m k
  | none => none

/-- addHook: this.hooks[hookName] = hookFn, a property write on the
live hooks object. -/
def addHook {F : Type} (st : RepoSt F) (k : HookName) (f : F) : RepoSt F :=
  match heapGet st.heap st.hooksRef with
  | some m =>
    { heap := heapSet st.heap st.hooksRef
        (fun k2 => if k2 = k then some f else m k2)
      hooksRef := st.hooksRef }
  | none => st

/-- removeHook: delete this.hooks[hookName]. -/
def removeHook {F : Type} (st : RepoSt F) (k : HookName) : RepoSt F :=
  match heapGet st.heap st.hooksRef with
  | some m =>
    { heap := heapSet st.heap st.hooksRef
        (fun k2 => if k2 = k then none else m k2)
      hooksRef := st.hooksRef }
  | none => st

/-- getHooks: return a spread copy of this.hooks, allocated as a fresh
object; the returned reference is handed to the caller. -/
def getHooks {F : Type} (st : RepoSt F) : RepoSt F × Nat :=
  match heapGet st.heap st.hooksRef with
  | some m =>
    ({ heap := { objs := (st.heap.nextRef, m) :: st.heap.objs
                 nextRef := st.heap.nextRef + 1 }
       hooksRef := st.hooksRef },
     st.heap.nextRef)
  | none => (st, st.heap.nextRef)

/-- A property write or delete performed by the caller on the object
behind reference r (none models delete). -/
def writeObj {F : Type} (st : RepoSt F) (r : Nat) (k : HookName)
    (v : Option F) : RepoSt F :=
  match heapGet st.heap r with
  | some m =>
    { heap := heapSet st.heap r (fun k2 => if k2 = k then v else m k2)
      hooksRef := st.hooksRef }
  | none => st

/-- A sequence of caller mutations on the object behind reference r. -/
def applyWrites {F : Type} (st : RepoSt F) (r : Nat) :
    List (HookName × Option F) → RepoSt F
  | [] => st
  | (k, v) :: rest => applyWrites (writeObj st r k v) r rest

/-!
Helper predicates and lemmas about traces.
-/

/-- Backend call events. -/
def isDbEv {V E F : Type} : Ev V E F → Bool
  | .db _ => true
  | _ => false

/-- Hook or interceptor invocation events. -/
def isEngineEv {V E F : Type} : Ev V E F → Bool
  | .db _ => false
  | _ => true

/-- Whether the context carries a metadata bag with the duration set,
which is true exactly for the completed contexts the wrapper builds
after the operation thunk has finished. -/
def Ctx.hasDuration {V E : Type} (c : Ctx V E) : Bool :=
  match c.metadata with
  | some m => m.duration.isSome
  | none => false

/-- Event that is an invocation of the error hook oe on a context whose
error field is je (the literal counting of claim C3). -/
def onErrWithEv {V E F : Type} [DecidableEq F] [DecidableEq E]
    (oe : F) (je : JsError E) : Ev V E F → Bool
  | .hook f c => decide (f = oe) && decide (c.error = some je)
  | _ => false

/-- Event that is an invocation of the error hook oe on a completed
failure context: error field je and the elapsed duration attached
(which the synthetic hook_error contexts never have). -/
def failNotifEv {V E F : Type} [DecidableEq F] [DecidableEq E]
    (oe : F) (je : JsError E) : Ev V E F → Bool
  | .hook f c => decide (f = oe) && decide (c.error = some je) && c.hasDuration
  | _ => false

theorem hasDuration_hookErrorCtx {V E : Type} (e : JsError E) (c : Ctx V E) :
    (hookErrorCtx e c).hasDuration = false := rfl

theorem hook_mem_executeHook {V E F : Type} [DecidableEq F]
    (sem : F → Ctx V E → Except (JsError E) Unit) (oe : Option F) (h : F)
    (c : Ctx V E) : Ev.hook h c ∈ executeHook sem oe (some h) c := by
  unfold executeHook
  cases hs : sem h c with
  | ok u => simp [hs]
  | error e =>
    cases oe with
    | none => simp [hs]
    | some o =>
      by_cases hh : h = o
      · subst hh; simp [hs]
      · simp [hs, hh]

theorem countP_db_map_zero {V E F : Type} (p : Ev V E F → Bool)
    (hp : ∀ s, p (.db s) = false) (calls : List String) :
    (calls.map (Ev.db (V := V) (E := E) (F := F))).countP p = 0 := by
  induction calls with
  | nil => rfl
  | cons a as ih => simp [List.countP_cons, hp, ih]

theorem countP_executeHook_no_db {V E F : Type} [DecidableEq F]
    (p : Ev V E F → Bool) (hp : ∀ f c, p (.hook f c) = false)
    (sem : F → Ctx V E → Except (JsError E) Unit) (oe hook : Option F)
    (c : Ctx V E) : (executeHook sem oe hook c).countP p = 0 := by
  unfold executeHook
  cases hook with
  | none => rfl
  | some h =>
    cases hs : sem h c with
    | ok u => simp [hs, List.countP_cons, hp]
    | error e =>
      cases oe with
      | none => simp [hs, List.countP_cons, hp]
      | some o =>
        by_cases hh : h = o
        · subst hh; simp [hs, List.countP_cons, hp]
        · simp [hs, hh, List.countP_cons, hp]

theorem countP_executeInterceptor_no_db {V E F I : Type}
    (p : Ev V E F → Bool) (hp : ∀ c, p (.intercept c) = false)
    (isem : I → Ctx V E → Except (JsError E) (Ctx V E)) (ih : Option I)
    (c : Ctx V E) :
    ((executeInterceptor (F := F) isem ih c).2).countP p = 0 := by
  unfold executeInterceptor
  cases ih with
  | none => rfl
  | some i =>
    cases hs : isem i c with
    | ok c2 => simp [hs, List.countP_cons, hp]
    | error e => simp [hs, List.countP_cons, hp]

theorem countP_failNotif_executeHook_zero {V E F : Type} [DecidableEq F]
    [DecidableEq E] (oe2 : F) (je : JsError E)
    (sem : F → Ctx V E → Except (JsError E) Unit) (oe hook : Option F)
    (c : Ctx V E) (hc : c.hasDuration = false) :
    (executeHook sem oe hook c).countP (failNotifEv oe2 je) = 0 := by
  unfold executeHook
  cases hook with
  | none => rfl
  | some h =>
    cases hs : sem h c with
    | ok u => simp [hs, List.countP_cons, failNotifEv, hc]
    | error e =>
      cases oe with
      | none => simp [hs, List.countP_cons, failNotifEv, hc]
      | some o =>
        by_cases hh : h = o
        · subst hh; simp [hs, List.countP_cons, failNotifEv, hc]
        · simp [hs, hh, List.countP_cons, failNotifEv, hc,
            hasDuration_hookErrorCtx]

theorem countP_failNotif_onError_one {V E F : Type} [DecidableEq F]
    [DecidableEq E] (oe : F) (je : JsError E)
    (sem : F → Ctx V E → Except (JsError E) Unit) (c : Ctx V E)
    (hce : c.error = some je) (hcd : c.hasDuration = true) :
    (executeHook sem (some oe) (some oe) c).countP (failNotifEv oe je) = 1 := by
  unfold executeHook
  cases hs : sem oe c with
  | ok u => simp [hs, List.countP_cons, failNotifEv, hce, hcd]
  | error e => simp [hs, List.countP_cons, failNotifEv, hce, hcd]

/-- C1. The guarantee that the wrapped outcome always equals the thunk
outcome fails in the code: with a registered interceptor that returns
a context without a metadata bag, a thunk that succeeds with 42 is
turned into a rejection with the TypeError raised by the
context.metadata duration assignment of wrapWithHooks (whose catch
block hits the same absent bag and rethrows). -/
theorem claim1_metadata_stripped_interceptor_changes_outcome :
    (wrapWithHooks (V := Nat) (E := Nat) (F := Nat) (I := Nat)
      (fun _ _ => .ok ())
      (fun _ c => .ok (.mk c.operation c.data c.result c.error none c.startTime))
      none (some 0) "createFile" none none (.ok 42, ["insert files returning"])
      none 0 5).1 = .error .typeError ∧
    (wrapWithHooks (V := Nat) (E := Nat) (F := Nat) (I := Nat)
      (fun _ _ => .ok ())
      (fun _ c => .ok (.mk c.operation c.data c.result c.error none c.startTime))
      none (some 0) "createFile" none none (.ok 42, ["insert files returning"])
      none 0 5).1 ≠ .ok 42 :=
  ⟨rfl, fun hEq => Except.noConfusion hEq⟩

/-- C2. For a thunk that succeeds with r and before/after hooks that
throw whenever invoked (with any error hook registered and no
interceptor), the wrapped call still resolves with r; the hook
exceptions are invisible in the outcome. -/
theorem claim2_throwing_hooks_preserve_success {V E F I : Type}
    [DecidableEq F] (sem : F → Ctx V E → Except (JsError E) Unit)
    (isem : I → Ctx V E → Except (JsError E) (Ctx V E))
    (onErrorHook : Option F) (bh ah : F) (operation : String) (r : V)
    (calls : List String) (data : Option V) (t0 t1 : Nat)
    (hb : ∀ c, ∃ e, sem bh c = .error e)
    (ha : ∀ c, ∃ e, sem ah c = .error e) :
    (wrapWithHooks sem isem onErrorHook none operation (some bh) (some ah)
      (.ok r, calls) data t0 t1).1 = .ok r := rfl

/-- Witness for C2 at concrete inputs: both hooks always throw, an
error hook is registered, and the wrapped call still returns 7. -/
theorem claim2_witness :
    (wrapWithHooks (V := Nat) (E := Nat) (F := Nat) (I := Nat)
      (fun _ _ => .error (.thrown 3))
      (fun _ c => .ok c) (some 0) none "createFile" (some 1) (some 2)
      (.ok 7, ["insert files returning"]) none 0 4).1 = .ok 7 :=
  claim2_throwing_hooks_preserve_success
    (fun _ _ => .error (.thrown 3)) (fun _ c => .ok c) (some 0) 1 2
    "createFile" 7 ["insert files returning"] none 0 4
    (fun c => ⟨.thrown 3, rfl⟩) (fun c => ⟨.thrown 3, rfl⟩)

/-- C7. When a hook other than the error hook throws e, executeHook
produces exactly the invocation of that hook followed by exactly one
invocation of the error hook, on the synthetic context with operation
hook_error, the causing error e, and the original context nested in
metadata; this holds for every behaviour of the error hook, so a
throwing error hook is caught and never invoked again. -/
theorem claim7_hook_failure_notifies_error_hook_once {V E F : Type}
    [DecidableEq F] (sem : F → Ctx V E → Except (JsError E) Unit)
    (oe h : F) (c : Ctx V E) (e : JsError E) (hne : h ≠ oe)
    (hthrow : sem h c = .error e) :
    executeHook sem (some oe) (some h) c
      = [.hook h c, .hook oe (hookErrorCtx e c)] := by
  unfold executeHook
  simp [hthrow, hne]

/-- Witness for C7 at concrete inputs: hook 1 throws 5, distinct error
hook 0 (which itself always throws) is notified exactly once with the
synthetic context. -/
theorem claim7_witness :
    executeHook (V := Nat) (E := Nat)
      (fun f _ => if f == 0 then .error (.thrown 9) else .error (.thrown 5))
      (some 0) (some 1) (.mk "createFile" none none none (some (.mk none none none)) (some 2))
      = [.hook 1 (.mk "createFile" none none none (some (.mk none none none)) (some 2)),
         .hook 0 (hookErrorCtx (.thrown 5)
           (.mk "createFile" none none none (some (.mk none none none)) (some 2)))] :=
  claim7_hook_failure_notifies_error_hook_once
    (fun f _ => if f == 0 then .error (.thrown 9) else .error (.thrown 5))
    0 1 (.mk "createFile" none none none (some (.mk none none none)) (some 2))
    (.thrown 5) (by decide) rfl

/-- C3 as stated is false: with a registered error hook and an
interceptor that returns a context without a metadata bag, a thunk
that throws (.thrown 7) produces a wrapped call that rejects with the
engine TypeError instead of the original error, and the error hook is
invoked zero times with a context carrying that error. -/
theorem claim3_counterexample :
    (wrapWithHooks (V := Nat) (E := Nat) (F := Nat) (I := Nat)
      (fun _ _ => .ok ())
      (fun _ c => .ok (.mk c.operation c.data c.result c.error none c.startTime))
      (some 0) (some 9) "deleteFile" none none
      (.error (.thrown 7), ["delete files where id"]) none 0 5).1
      = .error .typeError ∧
    ((wrapWithHooks (V := Nat) (E := Nat) (F := Nat) (I := Nat)
      (fun _ _ => .ok ())
      (fun _ c => .ok (.mk c.operation c.data c.result c.error none c.startTime))
      (some 0) (some 9) "deleteFile" none none
      (.error (.thrown 7), ["delete files where id"]) none 0 5).2).countP
      (onErrWithEv 0 (.thrown 7)) = 0 ∧
    (wrapWithHooks (V := Nat) (E := Nat) (F := Nat) (I := Nat)
      (fun _ _ => .ok ())
      (fun _ c => .ok (.mk c.operation c.data c.result c.error none c.startTime))
      (some 0) (some 9) "deleteFile" none none
      (.error (.thrown 7), ["delete files where id"]) none 0 5).1
      ≠ .error (.thrown 7) :=
  ⟨rfl, rfl, fun hEq => JsError.noConfusion (Except.error.inj hEq)⟩

/-- C3 amended. When no interceptor is registered, a thunk that throws
je makes the wrapped call re-raise je itself, and the registered error
hook is invoked exactly once with the completed failure context (error
field je with the elapsed duration attached); synthetic hook_error
notifications triggered by throwing before-hooks never carry a
duration and are counted separately, and this holds for every hook
behaviour including an error hook that itself throws. -/
theorem claim3_amended_error_hook_once {V E F I : Type} [DecidableEq F]
    [DecidableEq E] (sem : F → Ctx V E → Except (JsError E) Unit)
    (isem : I → Ctx V E → Except (JsError E) (Ctx V E)) (oe : F)
    (bh ah : Option F) (operation : String) (je : JsError E)
    (calls : List String) (data : Option V) (t0 t1 : Nat) :
    (wrapWithHooks sem isem (some oe) none operation bh ah
      (.error je, calls) data t0 t1).1 = .error je ∧
    ((wrapWithHooks sem isem (some oe) none operation bh ah
      (.error je, calls) data t0 t1).2).countP (failNotifEv oe je) = 1 := by
  refine ⟨rfl, ?_⟩
  have h1 : (wrapWithHooks sem isem (some oe) none operation bh ah
      (.error je, calls) data t0 t1).2
      = executeHook sem (some oe) bh
          (.mk operation data none none (some (.mk none none none)) (some t0))
        ++ (calls.map Ev.db
        ++ executeHook sem (some oe) (some oe)
          (.mk operation data none (some je)
            (some (.mk (some (t1 - t0)) none none)) (some t0))) := by
    simp [wrapWithHooks, executeInterceptor, Ctx.setError, Ctx.setMetadata,
      Ctx.metadata, Meta.setDuration]
  rw [h1, List.countP_append, List.countP_append]
  rw [countP_failNotif_executeHook_zero oe je sem (some oe) bh
    (.mk operation data none none (some (.mk none none none)) (some t0)) rfl]
  rw [countP_db_map_zero _ (fun s => rfl) calls]
  rw [countP_failNotif_onError_one oe je sem
    (.mk operation data none (some je)
      (some (.mk (some (t1 - t0)) none none)) (some t0)) rfl rfl]

/-- C6. With a registered interceptor that throws on every input, the
wrapped call still completes with the thunk outcome, and the
before-hook (when registered) receives exactly the pre-interceptor
context built at the start of the call. -/
theorem claim6_interceptor_failure_is_isolated {V E F I : Type}
    [DecidableEq F] (sem : F → Ctx V E → Except (JsError E) Unit)
    (isem : I → Ctx V E → Except (JsError E) (Ctx V E)) (ic : I)
    (onErrorHook : Option F) (bh ah : Option F) (operation : String)
    (res : Except (JsError E) V) (calls : List String) (data : Option V)
    (t0 t1 : Nat) (hi : ∀ c, ∃ e, isem ic c = .error e) :
    (wrapWithHooks sem isem onErrorHook (some ic) operation bh ah
      (res, calls) data t0 t1).1 = res ∧
    ∀ b, bh = some b →
      Ev.hook b (.mk operation data none none (some (.mk none none none)) (some t0))
        ∈ (wrapWithHooks sem isem onErrorHook (some ic) operation bh ah
            (res, calls) data t0 t1).2 := by
  obtain ⟨e0, he0⟩ :=
    hi (.mk operation data none none (some (.mk none none none)) (some t0))
  cases res with
  | ok r =>
    obtain ⟨e1, he1⟩ :=
      hi (.mk operation data (some r) none
        (some (.mk (some (t1 - t0)) none none)) (some t0))
    constructor
    · simp [wrapWithHooks, executeInterceptor, he0, he1, Ctx.setResult,
        Ctx.setMetadata, Ctx.metadata, Meta.setDuration]
    · intro b hb
      subst hb
      simp only [wrapWithHooks, executeInterceptor, he0, he1, Ctx.setResult,
        Ctx.setMetadata, Ctx.metadata, Meta.setDuration]
      simp [hook_mem_executeHook]
  | error e =>
    constructor
    · simp [wrapWithHooks, executeInterceptor, he0, Ctx.setError,
        Ctx.setMetadata, Ctx.metadata, Meta.setDuration]
    · intro b hb
      subst hb
      simp only [wrapWithHooks, executeInterceptor, he0, Ctx.setError,
        Ctx.setMetadata, Ctx.metadata, Meta.setDuration]
      simp [hook_mem_executeHook]

/-- Witness for C6 at concrete inputs: an always-throwing interceptor,
a registered before-hook 1 and error hook 0; the wrapped call returns
the thunk result 7 and the before-hook saw the initial context. -/
theorem claim6_witness :
    (wrapWithHooks (V := Nat) (E := Nat) (F := Nat) (I := Nat)
      (fun _ _ => .ok ()) (fun _ _ => .error (.thrown 8)) (some 0) (some 4)
      "getAllFiles" (some 1) (some 2) (.ok 7, ["select files page"])
      none 0 3).1 = .ok 7 ∧
    ∀ b, some 1 = some b →
      Ev.hook b (.mk "getAllFiles" none none none (some (.mk none none none)) (some 0))
        ∈ (wrapWithHooks (V := Nat) (E := Nat) (F := Nat) (I := Nat)
          (fun _ _ => .ok ()) (fun _ _ => .error (.thrown 8)) (some 0) (some 4)
          "getAllFiles" (some 1) (some 2) (.ok 7, ["select files page"])
          none 0 3).2 :=
  claim6_interceptor_failure_is_isolated (fun _ _ => .ok ())
    (fun _ _ => .error (.thrown 8)) 4 (some 0) (some 1) (some 2)
    "getAllFiles" (.ok 7) ["select files page"] none 0 3
    (fun c => ⟨.thrown 8, rfl⟩)

theorem countP_isDb_executeHook {V E F : Type} [DecidableEq F]
    (sem : F → Ctx V E → Except (JsError E) Unit) (oe hook : Option F)
    (c : Ctx V E) : (executeHook sem oe hook c).countP isDbEv = 0 :=
  countP_executeHook_no_db isDbEv (fun f c => rfl) sem oe hook c

theorem countP_isDb_executeInterceptor {V E F I : Type}
    (isem : I → Ctx V E → Except (JsError E) (Ctx V E)) (ih : Option I)
    (c : Ctx V E) :
    ((executeInterceptor (F := F) isem ih c).2).countP isDbEv = 0 :=
  countP_executeInterceptor_no_db isDbEv (fun c => rfl) isem ih c

/-- A wrapped call whose thunk issues no backend calls has no backend
call in its whole trace, whatever hooks are registered. -/
theorem wrap_no_db_when_no_calls {V E F I : Type} [DecidableEq F]
    (sem : F → Ctx V E → Except (JsError E) Unit)
    (isem : I → Ctx V E → Except (JsError E) (Ctx V E))
    (oe : Option F) (ih : Option I) (operation : String)
    (bh ah : Option F) (res : Except (JsError E) V) (data : Option V)
    (t0 t1 : Nat) :
    ((wrapWithHooks sem isem oe ih operation bh ah (res, []) data t0 t1).2).countP
      isDbEv = 0 := by
  unfold wrapWithHooks
  cases res with
  | ok r =>
    simp only []
    split
    · simp [List.countP_append, countP_isDb_executeHook,
        countP_isDb_executeInterceptor]
    · simp [List.countP_append, countP_isDb_executeHook,
        countP_isDb_executeInterceptor]
  | error e =>
    simp only []
    split
    · simp [List.countP_append, countP_isDb_executeHook,
        countP_isDb_executeInterceptor]
    · simp [List.countP_append, countP_isDb_executeHook,
        countP_isDb_executeInterceptor]

/-- C8. On empty input, both bulk operations of both adapters issue no
backend call whatever hooks are registered, and with the default empty
hook table bulkDeleteFiles resolves with a zero deleted count and
bulkCreateFiles resolves with the empty list. -/
theorem claim8_empty_bulk_input_is_a_noop {F I : Type} [DecidableEq F]
    (sem : HookSem F) (isem : ISem I) (h : HookTable F I) (db : DbState)
    (genId : Nat → String) (now : Nat) (t0 t1 : Nat) :
    ((drizzleBulkDeleteFiles sem isem h db [] t0 t1).1.2).countP isDbEv = 0 ∧
    ((drizzleBulkCreateFiles sem isem h db [] genId now t0 t1).1.2).countP isDbEv = 0 ∧
    ((prismaBulkDeleteFiles sem isem h db [] t0 t1).1.2).countP isDbEv = 0 ∧
    ((prismaBulkCreateFiles sem isem h db [] genId now t0 t1).1.2).countP isDbEv = 0 ∧
    (drizzleBulkDeleteFiles sem isem emptyHooks db [] t0 t1).1.1
      = .ok (Val.bulkDel 0) ∧
    (drizzleBulkCreateFiles sem isem emptyHooks db [] genId now t0 t1).1.1
      = .ok (Val.files []) ∧
    (prismaBulkDeleteFiles sem isem emptyHooks db [] t0 t1).1.1
      = .ok (Val.bulkDel 0) ∧
    (prismaBulkCreateFiles sem isem emptyHooks db [] genId now t0 t1).1.1
      = .ok (Val.files []) := by
  refine ⟨?_, ?_, ?_, ?_, rfl, rfl, rfl, rfl⟩
  · exact wrap_no_db_when_no_calls sem isem h.onError h.intercept
      "bulkDeleteFiles" h.beforeDelete h.afterDelete (.ok (Val.bulkDel 0))
      (some (Val.idsArg [])) t0 t1
  · exact wrap_no_db_when_no_calls sem isem h.onError h.intercept
      "bulkCreateFiles" h.beforeCreate h.afterCreate (.ok (Val.files []))
      (some (Val.insertsArg [])) t0 t1
  · exact wrap_no_db_when_no_calls sem isem h.onError h.intercept
      "bulkDeleteFiles" h.beforeDelete h.afterDelete (.ok (Val.bulkDel 0))
      (some (Val.idsArg [])) t0 t1
  · exact wrap_no_db_when_no_calls sem isem h.onError h.intercept
      "bulkCreateFiles" h.beforeCreate h.afterCreate (.ok (Val.files []))
      (some (Val.insertsArg [])) t0 t1

/-- Whether an outcome is a raised error of kind NOT_FOUND whose
metadata carries the given id. -/
def raisesNotFoundId (id : String) : Except SErr Val → Bool
  | .error (.thrown se) =>
    decide (se.code = ErrCode.NOT_FOUND) && decide (se.metaId = some id)
  | _ => false

/-- C4 as stated is false: deleteFile of the Drizzle adapter on an id
that matches no record resolves successfully with unit instead of
raising a NOT_FOUND error carrying the id. -/
theorem claim4_counterexample :
    (drizzleDeleteFile (F := Nat) (I := Nat) (fun _ _ => .ok ())
      (fun _ c => .ok c) emptyHooks
      { files := [{ id := "a1", r2Key := "k1", originalFilename := "a.png"
                    fileSize := 100, publicUrl := "https://x/k1"
                    uploadedBy := "u1", createdAt := 10 }], users := [] }
      "nonexistent-id" 0 1).1.1 = .ok Val.unit ∧
    raisesNotFoundId "nonexistent-id"
      (drizzleDeleteFile (F := Nat) (I := Nat) (fun _ _ => .ok ())
        (fun _ c => .ok c) emptyHooks
        { files := [{ id := "a1", r2Key := "k1", originalFilename := "a.png"
                      fileSize := 100, publicUrl := "https://x/k1"
                      uploadedBy := "u1", createdAt := 10 }], users := [] }
        "nonexistent-id" 0 1).1.1 = false :=
  ⟨rfl, rfl⟩

/-- C4 amended. On an id that matches no record: updateFile raises
NOT_FOUND carrying the id in metadata in both adapters, deleteFile
raises it in the Prisma adapter, and deleteFile of the Drizzle adapter
resolves successfully without any error. -/
theorem claim4_amended_not_found_translation {F I : Type} [DecidableEq F]
    (sem : HookSem F) (isem : ISem I) (db : DbState) (id : String)
    (p : FilePatch) (t0 t1 : Nat) (hnone : ∀ f ∈ db.files, f.id ≠ id) :
    (drizzleUpdateFile sem isem emptyHooks db id p t0 t1).1.1
      = .error (.thrown { code := .NOT_FOUND, message := "File not found"
                          metaId := some id, hasCause := false }) ∧
    (prismaUpdateFile sem isem emptyHooks db id p t0 t1).1.1
      = .error (.thrown { code := .NOT_FOUND, message := "File not found"
                          metaId := some id, hasCause := false }) ∧
    (prismaDeleteFile sem isem emptyHooks db id t0 t1).1.1
      = .error (.thrown { code := .NOT_FOUND, message := "File not found"
                          metaId := some id, hasCause := false }) ∧
    (drizzleDeleteFile sem isem emptyHooks db id t0 t1).1.1 = .ok Val.unit := by
  have hfind : db.files.find? (fun f => f.id == id) = none := by
    rw [List.find?_eq_none]
    intro f hf
    simpa using hnone f hf
  have hany : db.files.any (fun f => f.id == id) = false := by
    rw [List.any_eq_false]
    intro f hf
    simpa using hnone f hf
  refine ⟨?_, ?_, ?_, rfl⟩
  · simp [drizzleUpdateFile, wrapWithHooks, executeInterceptor, emptyHooks,
      hfind, Ctx.setError, Ctx.setMetadata, Ctx.metadata, Meta.setDuration]
  · simp [prismaUpdateFile, wrapWithHooks, executeInterceptor, emptyHooks,
      hfind, Ctx.setError, Ctx.setMetadata, Ctx.metadata, Meta.setDuration]
  · simp [prismaDeleteFile, wrapWithHooks, executeInterceptor, emptyHooks,
      hany, Ctx.setError, Ctx.setMetadata, Ctx.metadata, Meta.setDuration]

/-- Witness for C4 amended at concrete inputs: a one-record store and
an id not present in it. -/
theorem claim4_amended_witness :
    (prismaDeleteFile (F := Nat) (I := Nat) (fun _ _ => .ok ())
      (fun _ c => .ok c) emptyHooks
      { files := [{ id := "a1", r2Key := "k1", originalFilename := "a.png"
                    fileSize := 100, publicUrl := "https://x/k1"
                    uploadedBy := "u1", createdAt := 10 }], users := [] }
      "missing" 0 1).1.1
      = .error (.thrown { code := .NOT_FOUND, message := "File not found"
                          metaId := some "missing", hasCause := false }) :=
  (claim4_amended_not_found_translation (fun _ _ => .ok ()) (fun _ c => .ok c)
    { files := [{ id := "a1", r2Key := "k1", originalFilename := "a.png"
                  fileSize := 100, publicUrl := "https://x/k1"
                  uploadedBy := "u1", createdAt := 10 }], users := [] }
    "missing"
    { r2Key := none, originalFilename := none, fileSize := none
      publicUrl := none, uploadedBy := none } 0 1
    (by intro f hf; simp at hf; subst hf; decide)).2.2.1

/-- C9. In both adapters, count under a filter equals the total
reported by getAllFiles under the same filter with any limit N and
offset 0 (the duplicated where-clause builders agree), getAllFiles
with the default empty hook table resolves with exactly its computed
page and total, and the returned page never holds more rows than the
effective limit. -/
theorem claim9_count_total_and_limit {F I : Type} [DecidableEq F]
    (sem : HookSem F) (isem : ISem I) (db : DbState) (uc : Bool)
    (s u : Option String) (sd ed : Option Nat) (N : Nat)
    (okey : Option OrderKey) (odir : Option OrderDir)
    (o2 : FileQueryOptions) (t0 t1 : Nat) :
    (drizzleCountM sem isem emptyHooks db
      { limit := none, offset := none, search := s, uploaderId := u
        startDate := sd, endDate := ed, orderKey := none, orderDir := none }).1
      = .ok ((drizzleGetAllFilesRun uc db
        { limit := some N, offset := some 0, search := s, uploaderId := u
          startDate := sd, endDate := ed, orderKey := okey
          orderDir := odir }).2) ∧
    (drizzleGetAllFiles sem isem emptyHooks uc db
      { limit := some N, offset := some 0, search := s, uploaderId := u
        startDate := sd, endDate := ed, orderKey := okey, orderDir := odir }
      t0 t1).1.1
      = .ok (Val.page
          (drizzleGetAllFilesRun uc db
            { limit := some N, offset := some 0, search := s, uploaderId := u
              startDate := sd, endDate := ed, orderKey := okey
              orderDir := odir }).1
          (drizzleGetAllFilesRun uc db
            { limit := some N, offset := some 0, search := s, uploaderId := u
              startDate := sd, endDate := ed, orderKey := okey
              orderDir := odir }).2) ∧
    ((drizzleGetAllFilesRun uc db o2).1).length ≤ o2.limit.getD 50 ∧
    (prismaCountM sem isem emptyHooks db
      { limit := none, offset := none, search := s, uploaderId := u
        startDate := sd, endDate := ed, orderKey := none, orderDir := none }).1
      = .ok ((prismaGetAllFilesRun db
        { limit := some N, offset := some 0, search := s, uploaderId := u
          startDate := sd, endDate := ed, orderKey := okey
          orderDir := odir }).2) ∧
    (prismaGetAllFiles sem isem emptyHooks db
      { limit := some N, offset := some 0, search := s, uploaderId := u
        startDate := sd, endDate := ed, orderKey := okey, orderDir := odir }
      t0 t1).1.1
      = .ok (Val.page
          (prismaGetAllFilesRun db
            { limit := some N, offset := some 0, search := s, uploaderId := u
              startDate := sd, endDate := ed, orderKey := okey
              orderDir := odir }).1
          (prismaGetAllFilesRun db
            { limit := some N, offset := some 0, search := s, uploaderId := u
              startDate := sd, endDate := ed, orderKey := okey
              orderDir := odir }).2) ∧
    ((prismaGetAllFilesRun db o2).1).length ≤ o2.limit.getD 50 := by
  refine ⟨rfl, rfl, ?_, rfl, rfl, ?_⟩
  · unfold drizzleGetAllFilesRun
    cases uc <;> simp [List.length_take]
  · unfold prismaGetAllFilesRun
    simp [List.length_take]

theorem executeInterceptor_events_some {V E F I : Type}
    (isem : I → Ctx V E → Except (JsError E) (Ctx V E)) (i : I)
    (c : Ctx V E) :
    ((executeInterceptor (F := F) isem (some i) c).2) = [.intercept c] := by
  unfold executeInterceptor
  cases hs : isem i c <;> simp [hs]

/-- A wrapped call with a registered interceptor always starts its
trace with the interceptor invocation on the freshly built context. -/
theorem wrap_trace_head_intercept {V E F I : Type} [DecidableEq F]
    (sem : F → Ctx V E → Except (JsError E) Unit)
    (isem : I → Ctx V E → Except (JsError E) (Ctx V E)) (oe : Option F)
    (i : I) (operation : String) (bh ah : Option F)
    (res : Except (JsError E) V) (calls : List String) (data : Option V)
    (t0 t1 : Nat) :
    ((wrapWithHooks sem isem oe (some i) operation bh ah (res, calls)
      data t0 t1).2).head?
      = some (.intercept
          (.mk operation data none none (some (.mk none none none)) (some t0))) := by
  have hE := executeInterceptor_events_some (V := V) (E := E) (F := F) isem i
    (.mk operation data none none (some (.mk none none none)) (some t0))
  cases res with
  | ok r =>
    simp only [wrapWithHooks, hE]
    split <;> simp
  | error e =>
    simp only [wrapWithHooks, hE]
    split <;> simp

/-- A hook table with a registered interceptor and before-query hook
(hook function references 0 and 1). -/
def hooksQI : HookTable Nat Nat :=
  { beforeCreate := none, beforeRead := none, beforeUpdate := none
    beforeDelete := none, beforeQuery := some 1, afterCreate := none
    afterRead := none, afterUpdate := none, afterDelete := none
    afterQuery := none, onError := none, intercept := some 0 }

/-- A one-record sample store. -/
def dbSample : DbState :=
  { files := [{ id := "a1", r2Key := "k1", originalFilename := "a.png"
                fileSize := 100, publicUrl := "https://x/k1"
                uploadedBy := "u1", createdAt := 10 }]
    users := [] }

/-- C5 as stated is false: with an interceptor and a before-query hook
registered, getFileStats, exists and count of both adapters invoke no
hook and no interceptor at all; their traces hold only backend calls,
so no operation wrapping takes place. -/
theorem claim5_counterexample :
    ((drizzleGetFileStats (F := Nat) (I := Nat) (fun _ _ => .ok ())
      (fun _ c => .ok c) hooksQI dbSample 0).2).countP isEngineEv = 0 ∧
    ((drizzleExistsM (F := Nat) (I := Nat) (fun _ _ => .ok ())
      (fun _ c => .ok c) hooksQI dbSample "a1").2).countP isEngineEv = 0 ∧
    ((drizzleCountM (F := Nat) (I := Nat) (fun _ _ => .ok ())
      (fun _ c => .ok c) hooksQI dbSample
      { limit := none, offset := none, search := none, uploaderId := none
        startDate := none, endDate := none, orderKey := none
        orderDir := none }).2).countP isEngineEv = 0 ∧
    ((prismaGetFileStats (F := Nat) (I := Nat) (fun _ _ => .ok ())
      (fun _ c => .ok c) hooksQI dbSample 0).2).countP isEngineEv = 0 ∧
    ((prismaExistsM (F := Nat) (I := Nat) (fun _ _ => .ok ())
      (fun _ c => .ok c) hooksQI dbSample "a1").2).countP isEngineEv = 0 ∧
    ((prismaCountM (F := Nat) (I := Nat) (fun _ _ => .ok ())
      (fun _ c => .ok c) hooksQI dbSample
      { limit := none, offset := none, search := none, uploaderId := none
        startDate := none, endDate := none, orderKey := none
        orderDir := none }).2).countP isEngineEv = 0 :=
  ⟨rfl, rfl, rfl, rfl, rfl, rfl⟩

/-- C5 amended. The nine CRUD, query and bulk methods of each adapter
route through wrapWithHooks: with a registered interceptor their
traces start with the interceptor invocation on the context built for
their own operation name and payload. getFileStats, exists and count
of both adapters never produce a hook or interceptor invocation. -/
theorem claim5_amended_routing {F I : Type} [DecidableEq F]
    (sem : HookSem F) (isem : ISem I) (h : HookTable F I) (i : I)
    (hI : h.intercept = some i) (db : DbState) (d : FileInsert)
    (newId : String) (now : Nat) (id r2Key userId : String)
    (p : FilePatch) (o : FileQueryOptions) (ids : List String)
    (fileData : List FileInsert) (genId : Nat → String) (uc : Bool)
    (sevenDaysAgo : Nat) (t0 t1 : Nat) :
    (((drizzleCreateFile sem isem h db d newId now t0 t1).1.2).head?
      = some (.intercept (.mk "createFile" (some (.insertArg d)) none none
          (some (.mk none none none)) (some t0)))) ∧
    (((drizzleGetFileById sem isem h db id t0 t1).1.2).head?
      = some (.intercept (.mk "getFileById" (some (.idArg id)) none none
          (some (.mk none none none)) (some t0)))) ∧
    (((drizzleGetFileByR2Key sem isem h db r2Key t0 t1).1.2).head?
      = some (.intercept (.mk "getFileByR2Key" (some (.keyArg r2Key)) none none
          (some (.mk none none none)) (some t0)))) ∧
    (((drizzleUpdateFile sem isem h db id p t0 t1).1.2).head?
      = some (.intercept (.mk "updateFile" (some (.updateArg id p)) none none
          (some (.mk none none none)) (some t0)))) ∧
    (((drizzleDeleteFile sem isem h db id t0 t1).1.2).head?
      = some (.intercept (.mk "deleteFile" (some (.idArg id)) none none
          (some (.mk none none none)) (some t0)))) ∧
    (((drizzleGetFilesByUser sem isem h db userId t0 t1).1.2).head?
      = some (.intercept (.mk "getFilesByUser" (some (.userArg userId)) none none
          (some (.mk none none none)) (some t0)))) ∧
    (((drizzleGetAllFiles sem isem h uc db o t0 t1).1.2).head?
      = some (.intercept (.mk "getAllFiles" (some (.optionsArg o)) none none
          (some (.mk none none none)) (some t0)))) ∧
    (((drizzleBulkDeleteFiles sem isem h db ids t0 t1).1.2).head?
      = some (.intercept (.mk "bulkDeleteFiles" (some (.idsArg ids)) none none
          (some (.mk none none none)) (some t0)))) ∧
    (((drizzleBulkCreateFiles sem isem h db fileData genId now t0 t1).1.2).head?
      = some (.intercept (.mk "bulkCreateFiles" (some (.insertsArg fileData)) none none
          (some (.mk none none none)) (some t0)))) ∧
    (((prismaCreateFile sem isem h db d newId now t0 t1).1.2).head?
      = some (.intercept (.mk "createFile" (some (.insertArg d)) none none
          (some (.mk none none none)) (some t0)))) ∧
    (((prismaGetFileById sem isem h db id t0 t1).1.2).head?
      = some (.intercept (.mk "getFileById" (some (.idArg id)) none none
          (some (.mk none none none)) (some t0)))) ∧
    (((prismaGetFileByR2Key sem isem h db r2Key t0 t1).1.2).head?
      = some (.intercept (.mk "getFileByR2Key" (some (.keyArg r2Key)) none none
          (some (.mk none none none)) (some t0)))) ∧
    (((prismaUpdateFile sem isem h db id p t0 t1).1.2).head?
      = some (.intercept (.mk "updateFile" (some (.updateArg id p)) none none
          (some (.mk none none none)) (some t0)))) ∧
    (((prismaDeleteFile sem isem h db id t0 t1).1.2).head?
      = some (.intercept (.mk "deleteFile" (some (.idArg id)) none none
          (some (.mk none none none)) (some t0)))) ∧
    (((prismaGetFilesByUser sem isem h db userId t0 t1).1.2).head?
      = some (.intercept (.mk "getFilesByUser" (some (.userArg userId)) none none
          (some (.mk none none none)) (some t0)))) ∧
    (((prismaGetAllFiles sem isem h db o t0 t1).1.2).head?
      = some (.intercept (.mk "getAllFiles" (some (.optionsArg o)) none none
          (some (.mk none none none)) (some t0)))) ∧
    (((prismaBulkDeleteFiles sem isem h db ids t0 t1).1.2).head?
      = some (.intercept (.mk "bulkDeleteFiles" (some (.idsArg ids)) none none
          (some (.mk none none none)) (some t0)))) ∧
    (((prismaBulkCreateFiles sem isem h db fileData genId now t0 t1).1.2).head?
      = some (.intercept (.mk "bulkCreateFiles" (some (.insertsArg fileData)) none none
          (some (.mk none none none)) (some t0)))) ∧
    ((drizzleGetFileStats sem isem h db sevenDaysAgo).2).countP isEngineEv = 0 ∧
    ((drizzleExistsM sem isem h db id).2).countP isEngineEv = 0 ∧
    ((drizzleCountM sem isem h db o).2).countP isEngineEv = 0 ∧
    ((prismaGetFileStats sem isem h db sevenDaysAgo).2).countP isEngineEv = 0 ∧
    ((prismaExistsM sem isem h db id).2).countP isEngineEv = 0 ∧
    ((prismaCountM sem isem h db o).2).countP isEngineEv = 0 := by
  refine ⟨?_, ?_, ?_, ?_, ?_, ?_, ?_, ?_, ?_, ?_, ?_, ?_, ?_, ?_, ?_, ?_,
    ?_, ?_, rfl, rfl, rfl, rfl, rfl, rfl⟩
  all_goals first
  | (simp only [drizzleCreateFile, hI]; apply wrap_trace_head_intercept)
  | (simp only [drizzleGetFileById, hI]; apply wrap_trace_head_intercept)
  | (simp only [drizzleGetFileByR2Key, hI]; apply wrap_trace_head_intercept)
  | (simp only [drizzleUpdateFile, hI]; apply wrap_trace_head_intercept)
  | (simp only [drizzleDeleteFile, hI]; apply wrap_trace_head_intercept)
  | (simp only [drizzleGetFilesByUser, hI]; apply wrap_trace_head_intercept)
  | (simp only [drizzleGetAllFiles, hI]; apply wrap_trace_head_intercept)
  | (simp only [drizzleBulkDeleteFiles, hI]; apply wrap_trace_head_intercept)
  | (simp only [drizzleBulkCreateFiles, hI]; apply wrap_trace_head_intercept)
  | (simp only [prismaCreateFile, hI]; apply wrap_trace_head_intercept)
  | (simp only [prismaGetFileById, hI]; apply wrap_trace_head_intercept)
  | (simp only [prismaGetFileByR2Key, hI]; apply wrap_trace_head_intercept)
  | (simp only [prismaUpdateFile, hI]; apply wrap_trace_head_intercept)
  | (simp only [prismaDeleteFile, hI]; apply wrap_trace_head_intercept)
  | (simp only [prismaGetFilesByUser, hI]; apply wrap_trace_head_intercept)
  | (simp only [prismaGetAllFiles, hI]; apply wrap_trace_head_intercept)
  | (simp only [prismaBulkDeleteFiles, hI]; apply wrap_trace_head_intercept)
  | (simp only [prismaBulkCreateFiles, hI]; apply wrap_trace_head_intercept)

/-- Witness for C5 amended at concrete inputs: with the interceptor of
hooksQI registered, createFile of the Drizzle adapter starts its trace
with the interceptor invocation. -/
theorem claim5_amended_witness :
    (((drizzleCreateFile (F := Nat) (I := Nat) (fun _ _ => .ok ())
      (fun _ c => .ok c) hooksQI dbSample
      { r2Key := "k2", originalFilename := "b.png", fileSize := 5
        publicUrl := "https://x/k2", uploadedBy := "u1" } "a2" 11 0 1).1.2).head?
      = some (.intercept (.mk "createFile"
          (some (.insertArg
            { r2Key := "k2", originalFilename := "b.png", fileSize := 5
              publicUrl := "https://x/k2", uploadedBy := "u1" })) none none
          (some (.mk none none none)) (some 0)))) :=
  (claim5_amended_routing (fun _ _ => .ok ()) (fun _ c => .ok c) hooksQI 0 rfl
    dbSample
    { r2Key := "k2", originalFilename := "b.png", fileSize := 5
      publicUrl := "https://x/k2", uploadedBy := "u1" }
    "a2" 11 "a1" "k1" "u1"
    { r2Key := none, originalFilename := none, fileSize := none
      publicUrl := none, uploadedBy := none }
    { limit := none, offset := none, search := none, uploaderId := none
      startDate := none, endDate := none, orderKey := none, orderDir := none }
    [] [] (fun n => "g") false 0 0 1).1

theorem heapGet_heapSet_ne {F : Type} (h : HeapSt F) (r r2 : Nat)
    (m : HookMapJs F) (hne : r ≠ r2) :
    heapGet (heapSet h r m) r2 = heapGet h r2 := by
  obtain ⟨objs, nx⟩ := h
  simp only [heapGet, heapSet]
  induction objs with
  | nil => rfl
  | cons p ps ih =>
    simp only [List.map_cons]
    by_cases h1 : p.1 = r
    · have hhead : (if (p.1 == r) = true then (r, m) else p) = (r, m) := by
        simp [h1]
      rw [hhead, List.find?_cons_of_neg _ (by simp [hne]),
        List.find?_cons_of_neg _ (by simp [h1, hne])]
      exact ih
    · have hhead : (if (p.1 == r) = true then (r, m) else p) = p := by
        simp [h1]
      rw [hhead]
      by_cases h2 : p.1 = r2
      · rw [List.find?_cons_of_pos _ (by simp [h2]),
          List.find?_cons_of_pos _ (by simp [h2])]
      · rw [List.find?_cons_of_neg _ (by simp [h2]),
          List.find?_cons_of_neg _ (by simp [h2])]
        exact ih

theorem heapGet_heapSet_self {F : Type} (h : HeapSt F) (r : Nat)
    (m m0 : HookMapJs F) (hr : heapGet h r = some m0) :
    heapGet (heapSet h r m) r = some m := by
  obtain ⟨objs, nx⟩ := h
  simp only [heapGet, heapSet] at hr ⊢
  induction objs with
  | nil => simp [List.find?] at hr
  | cons p ps ih =>
    simp only [List.map_cons]
    by_cases h1 : p.1 = r
    · have hhead : (if (p.1 == r) = true then (r, m) else p) = (r, m) := by
        simp [h1]
      rw [hhead, List.find?_cons_of_pos _ (by simp)]
      rfl
    · have hhead : (if (p.1 == r) = true then (r, m) else p) = p := by
        simp [h1]
      rw [hhead, List.find?_cons_of_neg _ (by simp [h1])]
      rw [List.find?_cons_of_neg _ (by simp [h1])] at hr
      exact ih hr

theorem heapGet_writeObj_ne {F : Type} (st : RepoSt F) (r r2 : Nat)
    (k : HookName) (v : Option F) (hne : r ≠ r2) :
    heapGet (writeObj st r k v).heap r2 = heapGet st.heap r2 ∧
    (writeObj st r k v).hooksRef = st.hooksRef := by
  unfold writeObj
  cases hg : heapGet st.heap r with
  | none => exact ⟨rfl, rfl⟩
  | some m => exact ⟨heapGet_heapSet_ne st.heap r r2 _ hne, rfl⟩

theorem heapGet_applyWrites_ne {F : Type} (st : RepoSt F) (r r2 : Nat)
    (writes : List (HookName × Option F)) (hne : r ≠ r2) :
    heapGet (applyWrites st r writes).heap r2 = heapGet st.heap r2 ∧
    (applyWrites st r writes).hooksRef = st.hooksRef := by
  induction writes generalizing st with
  | nil => exact ⟨rfl, rfl⟩
  | cons w ws ih =>
    obtain ⟨k, v⟩ := w
    have h1 := heapGet_writeObj_ne st r r2 k v hne
    have h2 := ih (writeObj st r k v)
    exact ⟨h2.1.trans h1.1, h2.2.trans h1.2⟩

/-- C10. getHooks hands out a fresh copy: any sequence of property
writes and deletes on the returned object leaves every slot of the
live hook table unchanged; addHook changes exactly the named slot to
the given hook; removeHook clears exactly the named slot; in both
cases every other slot keeps its previous value. -/
theorem claim10_hook_table_management {F : Type} (st : RepoSt F)
    (m : HookMapJs F) (hst : heapGet st.heap st.hooksRef = some m)
    (hfresh : st.hooksRef ≠ st.heap.nextRef) :
    (∀ writes k,
      lookupHook (applyWrites (getHooks st).1 (getHooks st).2 writes) k
        = lookupHook st k) ∧
    (∀ k f, lookupHook (addHook st k f) k = some f) ∧
    (∀ k k2 f, k2 ≠ k → lookupHook (addHook st k f) k2 = lookupHook st k2) ∧
    (∀ k, lookupHook (removeHook st k) k = none) ∧
    (∀ k k2, k2 ≠ k → lookupHook (removeHook st k) k2 = lookupHook st k2) := by
  have hbeq : (st.heap.nextRef == st.hooksRef) = false := by
    simp [Ne.symm hfresh]
  have hG1 : (getHooks st).1.hooksRef = st.hooksRef := by
    simp [getHooks, hst]
  have hG2 : (getHooks st).2 = st.heap.nextRef := by
    simp [getHooks, hst]
  have hG3 : heapGet (getHooks st).1.heap st.hooksRef = some m := by
    simp only [getHooks, hst]
    unfold heapGet at hst ⊢
    simp only [List.find?, hbeq]
    exact hst
  refine ⟨?_, ?_, ?_, ?_, ?_⟩
  · intro writes k
    have hframe := heapGet_applyWrites_ne (getHooks st).1 (getHooks st).2
      st.hooksRef writes (by rw [hG2]; exact Ne.symm hfresh)
    unfold lookupHook
    rw [hframe.2, hG1, hframe.1, hG3, hst]
  · intro k f
    unfold addHook
    rw [hst]
    unfold lookupHook
    simp only [heapGet_heapSet_self st.heap st.hooksRef _ m hst]
    simp
  · intro k k2 f hkk
    unfold addHook
    rw [hst]
    unfold lookupHook
    simp only [heapGet_heapSet_self st.heap st.hooksRef _ m hst, hst]
    simp [hkk]
  · intro k
    unfold removeHook
    rw [hst]
    unfold lookupHook
    simp only [heapGet_heapSet_self st.heap st.hooksRef _ m hst]
    simp
  · intro k k2 hkk
    unfold removeHook
    rw [hst]
    unfold lookupHook
    simp only [heapGet_heapSet_self st.heap st.hooksRef _ m hst, hst]
    simp [hkk]

/-- Hook table with no entries, for the C10 witness. -/
def hookMapSample : HookMapJs Nat := fun _ => none

/-- Witness for C10 at concrete inputs: writing onError on the object
returned by getHooks does not change the live table, and addHook
beforeRead stores exactly the given hook. -/
theorem claim10_witness :
    lookupHook
      (applyWrites (getHooks (mkRepo hookMapSample)).1
        (getHooks (mkRepo hookMapSample)).2 [(HookName.onError, some 5)])
      HookName.onError
      = lookupHook (mkRepo hookMapSample) HookName.onError ∧
    lookupHook (addHook (mkRepo hookMapSample) HookName.beforeRead 7)
      HookName.beforeRead = some 7 :=
  ⟨(claim10_hook_table_management (mkRepo hookMapSample) hookMapSample rfl
      (by decide)).1 [(HookName.onError, some 5)] HookName.onError,
   (claim10_hook_table_management (mkRepo hookMapSample) hookMapSample rfl
      (by decide)).2.1 HookName.beforeRead 7⟩
